import Mathlib

/-!
Verification of the taskflows service layer (`src/taskflows/service/service.py`).

The Python code is shallowly embedded: pure helpers become Lean functions,
filesystem writes and D-Bus manager calls become explicit state passing over a
`SysState` (an association list of files plus a trace of manager calls), and
Python exceptions become `Except PyErr`.  Directive *sets* (Python `set`) are
modelled as insertion-ordered duplicate-free lists (`setInsert` / `setUnion`);
no property proved below depends on iteration order of a Python set.
-/

namespace Taskflows

/-- Python exception kinds raised / caught by the embedded code. -/
inductive PyErr
  | valueError
  | overflowError
  | fileNotFound
  | dbusError
deriving DecidableEq

/-- Insert into a Python-set modelled as an insertion-ordered dedup list. -/
def setInsert (xs : List String) (x : String) : List String :=
  if x ∈ xs then xs else xs ++ [x]

/-- `set.update`: fold `setInsert` over the new elements. -/
def setUnion (xs ys : List String) : List String :=
  ys.foldl setInsert xs

/-- `os.path.basename`: everything after the last `/` (empty for a trailing slash). -/
def basename (p : String) : String :=
  String.mk ((p.data.reverse.takeWhile (fun c => c ≠ '/')).reverse)

/-- `os.path.join(dir, f)` for a directory path with no trailing slash. -/
def path_join (d f : String) : String := d ++ "/" ++ f

/-- Modelled from the spec: `_SYSTEMD_FILE_PREFIX` from `taskflows/utils.py`
(not under `src/`): the fixed identifying prefix every artifact-name stem
starts with.  No claim depends on its exact characters, only on it being a
fixed string without `/` or spaces. -/
def systemdFilePfx : String := "taskflow-"

/-- Modelled from the spec: `systemd_dir` from `taskflows/utils.py`
(not under `src/`): the fixed user-scoped directory artifacts are written to. -/
def systemd_dir : String := "/root/.config/systemd/user"

/-- `name.replace(' ', '_')` (single-character pattern, hence a per-char map). -/
def sanitize_name (n : String) : String :=
  String.mk (n.data.map (fun c => if c = ' ' then '_' else c))

/-- Modelled from the spec: a `Schedule` (`service/schedule.py`, not under
`src/`) is a Calendar or Periodic value whose only use here is its set of
timer directive strings (`unit_entries`).  We keep just that set. -/
structure Schedule where
  unit_entries : List String
deriving DecidableEq

/-- A schedule slot `Optional[Union[Schedule, Sequence[Schedule]]]`:
either a single schedule object or a sequence of them. -/
inductive SchedArg
  | one (s : Schedule)
  | many (ss : List Schedule)
deriving DecidableEq

/-- Python truthiness of a schedule slot: `None` and an empty sequence are
falsy; a schedule object and a non-empty sequence are truthy. -/
def schedTruthy : Option SchedArg → Bool
  | none => false
  | some (.one _) => true
  | some (.many ss) => !ss.isEmpty

/-- Merged timer directive set of a schedule slot
(`timer.update(sched.unit_entries)` over one or many schedules). -/
def schedEntries : SchedArg → List String
  | .one s => setUnion [] s.unit_entries
  | .many ss => ss.foldl (fun acc s => setUnion acc s.unit_entries) []

/-- The restart-policy class hierarchy `RestartPolicy` /
`DelayRestartPolicy` / `BurstRestartPolicy` as a closed union; each
constructor carries exactly the fields of the corresponding dataclass. -/
inductive RestartPolicy
  | simple (policy : String)
  | delayed (policy : String) (restart_delay : Nat)
  | burst (policy : String) (restarts_per_period restart_period_sec : Nat)
deriving DecidableEq

/-- The `policy` field shared by all three dataclasses. -/
def RestartPolicy.policyKind : RestartPolicy → String
  | .simple p => p
  | .delayed p _ => p
  | .burst p _ _ => p

/-- `unit_entries`: empty for the base and delayed classes;
`BurstRestartPolicy` adds the two start-limit directives, then
`entries.update(super().unit_entries)` (the empty base set). -/
def RestartPolicy.unit_entries : RestartPolicy → List String
  | .simple _ => []
  | .delayed _ _ => []
  | .burst _ n p =>
      setUnion ["StartLimitIntervalSec=" ++ toString p,
                "StartLimitBurst=" ++ toString n] []

/-- `service_entries`: the base class yields `{Restart=policy}`;
`DelayRestartPolicy` starts from `{RestartSec=delay}` and updates with the
base set; `BurstRestartPolicy` inherits the base implementation. -/
def RestartPolicy.service_entries : RestartPolicy → List String
  | .simple p => ["Restart=" ++ p]
  | .delayed p d => setUnion ["RestartSec=" ++ toString d] ["Restart=" ++ p]
  | .burst p _ _ => ["Restart=" ++ p]

/-- The `restart_policy` field `Optional[Union[str, RestartPolicy]]`:
a bare string is coerced with `RestartPolicy(str)` at synthesis time. -/
inductive RestartPolicyArg
  | str (s : String)
  | pol (p : RestartPolicy)
deriving DecidableEq

/-- The coercion performed in `_write_service_units`. -/
def resolveRestartPolicy : RestartPolicyArg → RestartPolicy
  | .str s => .simple s
  | .pol p => p

/-- Python truthiness of `restart_policy` (`if self.restart_policy:`): an
empty policy string is falsy, a dataclass instance is always truthy. -/
def restartPolicyTruthy : RestartPolicyArg → Bool
  | .str s => !(s == "")
  | .pol _ => true

/-- A `ServicesT` element: either a raw unit-name string or another
`Service`, which `join` renders as `{v.base_file_stem}.service`; we represent
a referenced `Service` by its `base_file_stem`. -/
inductive ServiceRef
  | str (s : String)
  | svc (stem : String)
deriving DecidableEq

/-- The `join` helper of `_write_service_units` (a single value is wrapped
into a one-element list before joining, so slots are lists here). -/
def joinRefs (args : List ServiceRef) : String :=
  String.intercalate " "
    (args.map (fun v => match v with
      | .str s => s
      | .svc stem => stem ++ ".service"))

/-- Modelled from the spec: a hardware or system-load constraint
(`service/constraints.py`, not under `src/`) contributes a set of unit-level
directive strings; only that set is used by the synthesizer. -/
structure Constraint where
  unit_entries : List String
deriving DecidableEq

/-- The `Service` dataclass (the fields used by synthesis; `venv` is omitted:
`__post_init__` rewrites the three command strings through it before any
synthesis, so the commands here are the already-wrapped final values). -/
structure Service where
  name : String
  start_command : String
  start_command_blocking : Bool := true
  stop_command : Option String := none
  start_schedule : Option SchedArg := none
  stop_schedule : Option SchedArg := none
  restart_command : Option String := none
  kill_signal : String := "SIGTERM"
  description : Option String := none
  restart_policy : Option RestartPolicyArg := none
  hardware_constraints : Option (List Constraint) := none
  system_load_constraints : Option (List Constraint) := none
  start_before : Option (List ServiceRef) := none
  start_after : Option (List ServiceRef) := none
  wants : Option (List ServiceRef) := none
  upholds : Option (List ServiceRef) := none
  requires : Option (List ServiceRef) := none
  requisite : Option (List ServiceRef) := none
  binds_to : Option (List ServiceRef) := none
  on_failure : Option (List ServiceRef) := none
  on_success : Option (List ServiceRef) := none
  part_of : Option (List ServiceRef) := none
  propagate_stop_to : Option (List ServiceRef) := none
  propagate_stop_from : Option (List ServiceRef) := none
  conflicts : Option (List ServiceRef) := none
  timeout : Option Nat := none
  env_file : Option String := none
  env : Option (List (String × String)) := none
  working_directory : Option String := none

/-- Python truthiness of an optional string (`None` and `""` are falsy). -/
def optStrTruthy : Option String → Bool
  | none => false
  | some s => !(s == "")

/-- Python truthiness of an optional list (`None` and `[]` are falsy). -/
def optListTruthy {α : Type} : Option (List α) → Bool
  | none => false
  | some l => !l.isEmpty

/-- Python truthiness of an optional number (`None` and `0` are falsy). -/
def optNatTruthy : Option Nat → Bool
  | none => false
  | some n => !(n == 0)

/-- `Service.base_file_stem`: prefix + name with spaces replaced. -/
def Service.base_file_stem (s : Service) : String :=
  systemdFilePfx ++ sanitize_name s.name

/-- `Service.timer_files`. -/
def Service.timer_files (s : Service) : List String :=
  let file_stem := s.base_file_stem
  let files :=
    (if schedTruthy s.start_schedule then [file_stem ++ ".timer"] else []) ++
    (if schedTruthy s.stop_schedule then ["stop-" ++ file_stem ++ ".timer"] else [])
  files.map (path_join systemd_dir)

/-- `Service.service_files`. -/
def Service.service_files (s : Service) : List String :=
  let file_stem := s.base_file_stem
  let files :=
    [file_stem ++ ".service"] ++
    (if schedTruthy s.stop_schedule then ["stop-" ++ file_stem ++ ".service"] else [])
  files.map (path_join systemd_dir)

/-- `Service.unit_files`. -/
def Service.unit_files (s : Service) : List String :=
  s.service_files ++ s.timer_files

/-! ## Effect model: filesystem plus a trace of D-Bus manager calls. -/

/-- One call issued to the systemd manager (or to the container provider,
`delete_docker_container`). -/
inductive MgrCall
  | stopUnit (unit : String)
  | disableUnitFiles (units : List String)
  | cleanUnit (unit : String)
  | startUnit (unit : String)
  | enableUnitFiles (files : List String) (runtime force : Bool)
  | reload
  | deleteContainer (cname : String)
deriving DecidableEq

/-- Observable state: the on-disk unit files (path to content) and the
chronological trace of manager/provider calls attempted. -/
structure SysState where
  fs : List (String × String) := []
  calls : List MgrCall := []
deriving DecidableEq

/-- Look a path up in an on-disk store. -/
def fsRead (fs : List (String × String)) (p : String) : Option String :=
  (fs.find? (fun e => e.1 == p)).map (fun e => e.2)

/-- `Path.read_text` would succeed: content of a file, if present. -/
def SysState.read (st : SysState) (p : String) : Option String :=
  fsRead st.fs p

/-- `file.write_text(content)`: replaces any existing file at the path. -/
def SysState.writeFile (st : SysState) (p c : String) : SysState :=
  { st with fs := st.fs.filter (fun e => !(e.1 == p)) ++ [(p, c)] }

/-- `file.unlink()`: raises `FileNotFoundError` when the file is absent
(it is called without `missing_ok=True`). -/
def SysState.unlink (st : SysState) (p : String) : Except PyErr SysState :=
  if (st.fs.find? (fun e => e.1 == p)).isSome then
    .ok { st with fs := st.fs.filter (fun e => !(e.1 == p)) }
  else .error .fileNotFound

/-- Record one attempted manager call. -/
def SysState.call (st : SysState) (c : MgrCall) : SysState :=
  { st with calls := st.calls ++ [c] }

/-- Failure injection for the manager: which IPC calls raise a
`DBusException`.  The code under verification is quantified over this. -/
structure MgrModel where
  stopFails : String → Bool
  disableFails : List String → Bool
  cleanFails : String → Bool

/-- `StopUnit(sf, "replace")` as seen by the caller. -/
def mgrStopUnit (m : MgrModel) (u : String) : Except PyErr Unit :=
  if m.stopFails u then .error .dbusError else .ok ()

/-- `CleanUnit(name, ["all"])` as seen by the caller. -/
def mgrCleanUnit (m : MgrModel) (u : String) : Except PyErr Unit :=
  if m.cleanFails u then .error .dbusError else .ok ()

/-! ## The two regular expressions of the lifecycle layer. -/

/-- `pattern.isPrefixOf text` on raw char lists. -/
def listStarts : List Char → List Char → Bool
  | [], _ => true
  | _ :: _, [] => false
  | p :: ps, c :: cs => p == c && listStarts ps cs

/-- `pattern` is a suffix of `text`. -/
def listEnds (p l : List Char) : Bool := listStarts p.reverse l.reverse

/-- Drop one trailing newline: Python's `$` also matches just before a
newline that ends the string. -/
def stripTrailNl (cs : List Char) : List Char :=
  match cs.reverse with
  | c :: rest => if c = '\n' then rest.reverse else cs
  | [] => cs

/-- `re.match(r"^stop-.*\.service$", sf)` produced a match: the string (up
to one trailing newline) starts with `stop-`, ends with `.service`, and the
part matched by `.*` contains no newline. -/
def reMatchStopService (s : String) : Bool :=
  let cs := stripTrailNl s.data
  listStarts "stop-".data cs && listEnds ".service".data cs &&
    !(((cs.drop 5).take (cs.length - 13)).any (fun c => c = '\n'))

/-- A character of the class `[\w-]` (`\w` taken as ASCII word characters;
container names are ASCII). -/
def isWordDash (c : Char) : Bool := c.isAlphanum || c = '_' || c = '-'

/-- Try `docker (?:start|stop) ([\w-]+)` anchored at the head of `cs`;
returns the captured group.  The alternation tries `start` first; a branch
whose `([\w-]+)` finds no character fails, and the other alternative cannot
match at the same position. -/
def matchDockerAt (cs : List Char) : Option String :=
  if listStarts "docker start ".data cs then
    let w := (cs.drop 13).takeWhile isWordDash
    if w.isEmpty then none else some (String.mk w)
  else if listStarts "docker stop ".data cs then
    let w := (cs.drop 12).takeWhile isWordDash
    if w.isEmpty then none else some (String.mk w)
  else none

/-- `re.search(r"docker (?:start|stop) ([\w-]+)", text)`: leftmost match,
first captured group only. -/
def searchDockerName : List Char → Option String
  | [] => none
  | c :: cs =>
    match matchDockerAt (c :: cs) with
    | some w => some w
    | none => searchDockerName cs

/-! ## Lifecycle operations (`_start_service` .. `_remove_service`). -/

/-- `_start_service`: per file, take the basename, skip a secondary "stop"
service artifact, otherwise `StartUnit(sf, "replace")`. -/
def start_service (files : List String) (st : SysState) : SysState :=
  files.foldl
    (fun st f =>
      let sf := basename f
      if reMatchStopService sf then st else st.call (.startUnit sf))
    st

/-- One iteration of `_stop_service`: `StopUnit`; a `DBusException` is
caught, logged, and the loop continues. -/
def stop_service_step (m : MgrModel) (st : SysState) (f : String) : SysState :=
  let sf := basename f
  let st := st.call (.stopUnit sf)
  match mgrStopUnit m sf with
  | .ok _ => st
  | .error _ => st

/-- `_stop_service`. -/
def stop_service (m : MgrModel) (files : List String) (st : SysState) : SysState :=
  files.foldl (stop_service_step m) st

/-- `_disable_service`: one batch `DisableUnitFiles(basenames, False)` call
with no exception handling, so a `DBusException` propagates. -/
def disable_service (m : MgrModel) (files : List String) (st : SysState) :
    Except PyErr SysState :=
  let fbs := files.map basename
  let st := st.call (.disableUnitFiles fbs)
  if m.disableFails fbs then .error .dbusError else .ok st

/-- `_enable_service`: one batch `EnableUnitFiles(files, False, True)` call
(persistent, replacing symlinks). -/
def enable_service (files : List String) (st : SysState) : SysState :=
  st.call (.enableUnitFiles files false true)

/-- The per-service-file loop of `_remove_service`: `CleanUnit` (failure
caught and logged), then `srv_file.read_text()` (raising `FileNotFoundError`
when the file is absent), then `re.search` for a container name, collected
into the `container_names` set. -/
def clean_scan_step (m : MgrModel) (acc : SysState × List String)
    (srv : String) : Except PyErr (SysState × List String) := do
  let (st, cnames) := acc
  let st := st.call (.cleanUnit (basename srv))
  let st :=
    match mgrCleanUnit m (basename srv) with
    | .ok _ => st
    | .error _ => st
  let txt ←
    match st.read srv with
    | some t => Except.ok t
    | none => Except.error PyErr.fileNotFound
  let cnames :=
    match searchDockerName txt.data with
    | some n => setInsert cnames n
    | none => cnames
  .ok (st, cnames)

/-- The whole per-service-file loop of `_remove_service`. -/
def clean_scan (m : MgrModel) (service_files : List String) (st : SysState) :
    Except PyErr (SysState × List String) :=
  service_files.foldlM (clean_scan_step m) (st, [])

/-- Proof-side characterization of the container-name scan performed by
`_remove_service`: the `container_names` set (kept in insertion order)
collected from the first regex match of each service file's text, or `none`
when some service file is missing from the store
(`FileNotFoundError`). -/
def scan_names (fs : List (String × String)) : List String → List String → Option (List String)
  | [], acc => some acc
  | f :: rest, acc =>
    match fsRead fs f with
    | none => none
    | some txt =>
      scan_names fs rest
        (match searchDockerName txt.data with
         | some n => setInsert acc n
         | none => acc)

/-- `_remove_service`: stop, disable, clean-and-scan each service file,
delete each distinct discovered container name once, then unlink every
file. -/
def remove_service (m : MgrModel) (service_files timer_files : List String)
    (st : SysState) : Except PyErr SysState := do
  let files := service_files ++ timer_files
  let st := stop_service m files st
  let st ← disable_service m files st
  let (st, cnames) ← clean_scan m service_files st
  let st := cnames.foldl (fun st n => st.call (.deleteContainer n)) st
  let st ← files.foldlM (fun st f => st.unlink f) st
  .ok st

/-! ## Synthesis (`_write_timer_units` / `_write_service_units`). -/

/-- `Service._write_systemd_file`: derive the file name (with the `stop-`
marker for secondary units), write the content (replacing any existing
file), and return the path. -/
def Service.write_systemd_file (s : Service) (unit_type : String)
    (content : String) (is_stop_unit : Bool) (st : SysState) :
    SysState × String :=
  let file_stem := s.base_file_stem
  let file_stem := if is_stop_unit then "stop-" ++ file_stem else file_stem
  let file := path_join systemd_dir (file_stem ++ "." ++ unit_type)
  (st.writeFile file content, file)

/-- One iteration of `Service._write_timer_units`: skipped only when the
slot is `None` (an empty sequence still writes a timer with no entries). -/
def Service.write_timer_unit (s : Service) (is_stop_timer : Bool)
    (schedule : Option SchedArg) (st : SysState) : SysState :=
  match schedule with
  | none => st
  | some sched =>
    let timer := schedEntries sched
    let content :=
      ["[Unit]",
       "Description=" ++ (if is_stop_timer then "stop " else "") ++
         "timer for " ++ s.name,
       "[Timer]"] ++ timer ++
      ["[Install]",
       "WantedBy=timers.target"]
    (s.write_systemd_file "timer" (String.intercalate "\n" content)
       is_stop_timer st).1

/-- `Service._write_timer_units`. -/
def Service.write_timer_units (s : Service) (st : SysState) : SysState :=
  let st := s.write_timer_unit false s.start_schedule st
  s.write_timer_unit true s.stop_schedule st

/-- `Service._write_service_file`: `[Unit]` section only when `unit` is
truthy (both `None` and an empty set are falsy, modelled as `[]`). -/
def Service.write_service_file (s : Service) (unit service : List String)
    (is_stop_unit : Bool) (st : SysState) : SysState × String :=
  let content :=
    (if unit.isEmpty then [] else ["[Unit]"] ++ unit) ++
    ["[Service]"] ++ service ++
    ["[Install]",
     "WantedBy=default.target"]
  s.write_systemd_file "service" (String.intercalate "\n" content)
    is_stop_unit st

/-- The service-level directive set built by `Service._write_service_units`
(`service = {ExecStart, KillSignal}` plus the conditional adds, in program
order). -/
def Service.serviceEntriesSet (s : Service) : List String :=
  let service := setUnion []
    ["ExecStart=" ++ s.start_command, "KillSignal=" ++ s.kill_signal]
  let service := if s.start_command_blocking then service
    else setInsert service "RemainAfterExit=yes"
  let service := match s.stop_command with
    | some c => if c == "" then service else setInsert service ("ExecStop=" ++ c)
    | none => service
  let service := match s.restart_command with
    | some c => if c == "" then service else setInsert service ("ExecReload=" ++ c)
    | none => service
  let service := match s.working_directory with
    | some d => if d == "" then service else setInsert service ("WorkingDirectory=" ++ d)
    | none => service
  let service := match s.timeout with
    | some t => if t == 0 then service else setInsert service ("RuntimeMaxSec=" ++ toString t)
    | none => service
  let service := match s.env_file with
    | some f => if f == "" then service else setInsert service ("EnvironmentFile=" ++ f)
    | none => service
  let service := match s.env with
    | some kvs =>
      if kvs.isEmpty then service
      else
        let env := String.intercalate ","
          (kvs.map (fun kv => kv.1 ++ "=" ++ kv.2))
        setInsert service ("Environment=" ++ env)
    | none => service
  let service := match s.restart_policy with
    | some rp =>
      if restartPolicyTruthy rp then
        setUnion service (resolveRestartPolicy rp).service_entries
      else service
    | none => service
  service

/-- Add `Key=join(refs)` when the relation slot is truthy. -/
def addRelation (unit : List String) (key : String)
    (slot : Option (List ServiceRef)) : List String :=
  match slot with
  | some refs => if refs.isEmpty then unit else setInsert unit (key ++ "=" ++ joinRefs refs)
  | none => unit

/-- The unit-level directive set built by `Service._write_service_units`
(in program order; `Conflicts` is added twice in the source, a no-op on a
set). -/
def Service.unitEntriesSet (s : Service) : List String :=
  let unit : List String := []
  let unit := match s.description with
    | some d => if d == "" then unit else setInsert unit ("Description=" ++ d)
    | none => unit
  let unit := addRelation unit "After" s.start_after
  let unit := addRelation unit "Before" s.start_before
  let unit := addRelation unit "Conflicts" s.conflicts
  let unit := addRelation unit "OnSuccess" s.on_success
  let unit := addRelation unit "OnFailure" s.on_failure
  let unit := addRelation unit "PartOf" s.part_of
  let unit := addRelation unit "Wants" s.wants
  let unit := addRelation unit "Upholds" s.upholds
  let unit := addRelation unit "Requires" s.requires
  let unit := addRelation unit "Requisite" s.requisite
  let unit := addRelation unit "Conflicts" s.conflicts
  let unit := addRelation unit "BindsTo" s.binds_to
  let unit := addRelation unit "PropagatesStopTo" s.propagate_stop_to
  let unit := addRelation unit "StopPropagatedFrom" s.propagate_stop_from
  let unit := match s.restart_policy with
    | some rp =>
      if restartPolicyTruthy rp then
        setUnion unit (resolveRestartPolicy rp).unit_entries
      else unit
    | none => unit
  let unit := match s.hardware_constraints with
    | some hcs => hcs.foldl (fun u hc => setUnion u hc.unit_entries) unit
    | none => unit
  let unit := match s.system_load_constraints with
    | some slcs => slcs.foldl (fun u slc => setUnion u slc.unit_entries) unit
    | none => unit
  unit

/-- `Service._write_service_units`: write the primary service file, then,
when `stop_schedule` is truthy, the secondary "stop" service file whose only
service-level directive invokes `systemctl --user stop` on the primary
file's basename. -/
def Service.write_service_units (s : Service) (st : SysState) : SysState :=
  let (st, srv_file) :=
    s.write_service_file s.unitEntriesSet s.serviceEntriesSet false st
  if schedTruthy s.stop_schedule then
    let service := ["ExecStart=systemctl --user stop " ++ basename srv_file]
    (s.write_service_file [] service true st).1
  else st

/-- `Service.remove`. -/
def Service.remove (m : MgrModel) (s : Service) (st : SysState) :
    Except PyErr SysState :=
  remove_service m s.service_files s.timer_files st

/-- `Service.create`: remove any prior artifact set, write timers and
services, optionally reload, enable. -/
def Service.create (m : MgrModel) (s : Service) (defer_reload : Bool)
    (st : SysState) : Except PyErr SysState := do
  let st ← s.remove m st
  let st := s.write_timer_units st
  let st := s.write_service_units st
  let st := if defer_reload then st else st.call .reload
  let st := enable_service s.unit_files st
  .ok st

/-- `Service.start`. -/
def Service.start (s : Service) (st : SysState) : SysState :=
  start_service s.unit_files st

/-! ## `get_schedule_info` timestamp decoding.

`datetime.fromtimestamp(timestamp / 1_000_000)` converts the instant to the
host's **local** time and returns a naive datetime, which the code compares
against the naive `missing_dt = datetime(1970, 1, 1)`.  The host's UTC
offset (seconds east of UTC, as the C `localtime` applies it at the decoded
instant; an integral number of seconds for real timezones) is therefore an
input of the computation and is modelled as the explicit parameter `off`.
A naive local datetime is represented exactly as its signed microsecond
count since naive 1970-01-01 00:00:00 (the float division is microsecond
exact over the manager's domain). -/

/-- `datetime(1970, 1, 1, 0, 0, 0)` (`missing_dt`), a naive local-calendar
value: zero microseconds since the naive epoch. -/
def missing_dt : Int := 0

/-- Largest naive datetime: 9999-12-31 23:59:59.999999, in microseconds
since the naive epoch; a local result beyond it makes `fromtimestamp` raise
`ValueError: year ... is out of range`. -/
def MAX_DT_USEC : Int := 253402300799999999

/-- Smallest naive datetime: 0001-01-01 00:00:00, in microseconds since the
naive epoch; a local result below it likewise raises `ValueError`. -/
def MIN_DT_USEC : Int := -62135596800000000

/-- Largest seconds value fitting a 64-bit `time_t`; beyond it
`fromtimestamp` raises `OverflowError` instead (which the code does not
catch). -/
def TIME_T_MAX : Nat := 2 ^ 63 - 1

/-- `datetime.fromtimestamp(t / 1_000_000)` on a microsecond count `t`, on
a host whose UTC offset at the decoded instant is `off` seconds: the naive
local result is `t + off * 1_000_000` microseconds past the naive epoch. -/
def fromtimestampUsec (off : Int) (t : Nat) : Except PyErr Int :=
  if TIME_T_MAX < t / 1000000 then .error .overflowError
  else
    let loc : Int := (t : Int) + off * 1000000
    if loc < MIN_DT_USEC ∨ MAX_DT_USEC < loc then .error .valueError
    else .ok loc

/-- `timestamp_to_dt` (inner function of `get_schedule_info`): a result
equal to the naive epoch decodes to `None`, a `ValueError` is caught and
decodes to `None`, anything else decodes to a (local) datetime.  Note the
sentinel check compares the local-time result to the naive epoch, so the
manager's sentinel value 0 hits it only when `off = 0`. -/
def timestamp_to_dt (off : Int) (t : Nat) : Except PyErr (Option Int) :=
  match fromtimestampUsec off t with
  | .ok dt => .ok (if dt = missing_dt then none else some dt)
  | .error .valueError => .ok none
  | .error e => .error e

/-- The manager-reported properties `get_schedule_info` reads: the service's
two unit timestamps, the timer's next-elapse timestamp, and the calendar and
monotonic timer descriptor arrays. -/
structure ScheduleProps where
  activeEnter : Nat
  activeExit : Nat
  nextElapse : Nat
  timersCalendar : List (String × String × Nat)
  timersMonotonic : List (String × Nat × Nat)
deriving DecidableEq

/-- One decoded `TimersCalendar` entry. -/
structure TimerCalEntry where
  base : String
  spec : String
  next_start : Option Int
deriving DecidableEq

/-- The decoded schedule mapping produced by `get_schedule_info`. -/
structure ScheduleInfo where
  lastStart : Option Int
  lastFinish : Option Int
  nextStart : Option Int
  timersCalendar : List TimerCalEntry
  timersMonotonic : List (String × Nat × Option Int)
deriving DecidableEq

/-- `get_schedule_info`, from the property values the manager returned, on
a host whose UTC offset is `off` (one process-wide offset is applied to
every decoded field): decode the three timestamps, decode both timer
arrays, and when no direct "Next Start" was decoded fall back to the
minimum decoded calendar next-fire time. -/
def get_schedule_info (off : Int) (p : ScheduleProps) :
    Except PyErr ScheduleInfo := do
  let lastStart ← timestamp_to_dt off p.activeEnter
  let lastFinish ← timestamp_to_dt off p.activeExit
  let nextStart ← timestamp_to_dt off p.nextElapse
  let cal ← p.timersCalendar.mapM (fun e => do
    let ns ← timestamp_to_dt off e.2.2
    Except.ok { base := e.1, spec := e.2.1, next_start := ns : TimerCalEntry })
  let candidates := cal.filterMap (fun t => t.next_start)
  let nextStart :=
    match nextStart with
    | some v => some v
    | none =>
      match candidates with
      | [] => none
      | x :: xs => some (xs.foldl min x)
  let mono ← p.timersMonotonic.mapM (fun e => do
    let ns ← timestamp_to_dt off e.2.2
    Except.ok (e.1, e.2.1, ns))
  .ok { lastStart := lastStart, lastFinish := lastFinish,
        nextStart := nextStart, timersCalendar := cal,
        timersMonotonic := mono }

/-! ## Shared helper lemmas. -/

theorem str_append_cancel_left {a b c : String} (h : a ++ b = a ++ c) : b = c := by
  have h2 := congrArg String.data h
  simp only [String.data_append] at h2
  exact String.ext (List.append_cancel_left h2)

theorem takeWhile_append_all {p : Char → Bool} {l₁ : List Char}
    (l₂ : List Char) (h : ∀ a ∈ l₁, p a = true) :
    (l₁ ++ l₂).takeWhile p = l₁ ++ l₂.takeWhile p := by
  induction l₁ with
  | nil => rfl
  | cons a l ih =>
    have hpa : p a = true := h a (List.mem_cons_self a l)
    simp only [List.cons_append, List.takeWhile_cons, hpa, if_true]
    exact congrArg (a :: ·) (ih (fun x hx => h x (List.mem_cons_of_mem a hx)))

/-- `basename` of a joined path is the file name, when the file name has no
slash. -/
theorem basename_join (d f : String) (h : ∀ c ∈ f.data, c ≠ '/') :
    basename (path_join d f) = f := by
  have hdata : (path_join d f).data = (d.data ++ ['/']) ++ f.data := by
    simp only [path_join, String.data_append]
  have hrev : (path_join d f).data.reverse = f.data.reverse ++ ('/' :: d.data.reverse) := by
    simp [hdata, List.reverse_append]
  have hall : ∀ a ∈ f.data.reverse, (fun c => decide (c ≠ '/')) a = true := by
    intro a ha
    simp only [decide_eq_true_eq]
    exact h a (List.mem_reverse.mp ha)
  have : (path_join d f).data.reverse.takeWhile (fun c => decide (c ≠ '/')) = f.data.reverse := by
    rw [hrev, takeWhile_append_all _ hall]
    simp [List.takeWhile_cons]
  simp only [basename, this, List.reverse_reverse]

/-- `sanitize_name` never produces a slash from a slash-free name. -/
theorem sanitize_no_slash {n : String} (h : ∀ c ∈ n.data, c ≠ '/') :
    ∀ c ∈ (sanitize_name n).data, c ≠ '/' := by
  intro c hc
  simp only [sanitize_name] at hc
  obtain ⟨a, ha, rfl⟩ := List.mem_map.mp hc
  by_cases hsp : a = ' '
  · simp [hsp]
  · simp only [if_neg hsp]
    exact h a ha

/-- Characters of the stem of a slash-free name are slash-free. -/
theorem stem_no_slash (s : Service) (h : ∀ c ∈ s.name.data, c ≠ '/') :
    ∀ c ∈ s.base_file_stem.data, c ≠ '/' := by
  intro c hc
  simp only [Service.base_file_stem, String.data_append] at hc
  rcases List.mem_append.mp hc with hc | hc
  · have hpfx : ∀ a ∈ systemdFilePfx.data, a ≠ '/' := by decide
    exact hpfx c hc
  · exact sanitize_no_slash h c hc

theorem fsRead_writeFile_self (st : SysState) (p c : String) :
    (st.writeFile p c).read p = some c := by
  simp only [SysState.writeFile, SysState.read]
  induction st.fs with
  | nil => simp [fsRead]
  | cons e fs ih =>
    by_cases he : e.1 == p
    · simp [fsRead, he, ih]
    · simp only [fsRead, List.filter_cons, he, List.find?] at ih ⊢
      simp [he, ih]

theorem fsRead_writeFile_other (st : SysState) (p q c : String) (h : p ≠ q) :
    (st.writeFile q c).read p = st.read p := by
  simp only [SysState.writeFile, SysState.read]
  induction st.fs with
  | nil => simp [fsRead, List.find?, show (q == p) = false from by simpa using (Ne.symm h)]
  | cons e fs ih =>
    by_cases he : e.1 == p
    · have hq : (e.1 == q) = false := by
        have : e.1 = p := by simpa using he
        simp [this, h]
      simp [fsRead, List.find?, he, hq]
    · by_cases heq : e.1 == q
      · simpa [fsRead, List.find?, heq, he] using ih
      · simpa [fsRead, List.find?, heq, he] using ih

theorem read_call (st : SysState) (c : MgrCall) (p : String) :
    (st.call c).read p = st.read p := rfl

/-- Container-delete calls appearing in a trace, in order. -/
def containerDeletes (calls : List MgrCall) : List String :=
  calls.filterMap (fun c => match c with
    | .deleteContainer n => some n
    | _ => none)

theorem containerDeletes_append (a b : List MgrCall) :
    containerDeletes (a ++ b) = containerDeletes a ++ containerDeletes b := by
  simp [containerDeletes, List.filterMap_append]

/-! ## Shared concrete fixtures. -/

/-- A manager on which no IPC call fails. -/
def allOkMgr : MgrModel :=
  { stopFails := fun _ => false
    disableFails := fun _ => false
    cleanFails := fun _ => false }

/-- A minimal service spec: a name and a start command. -/
def svcX : Service := { name := "x", start_command := "echo hi" }

/-- A spec with only a stop schedule. -/
def svcStop : Service :=
  { name := "x", start_command := "c",
    stop_schedule := some (.one { unit_entries := ["OnCalendar=daily"] }) }

/-! ## Claims. -/

/-- **C1.** The claim says `create()` run when no prior artifacts exist on
disk completes like a first successful `create()`.  The code instead raises
`FileNotFoundError` inside `_remove_service` (`srv_file.read_text()` /
`file.unlink()` on the missing primary service file) before writing
anything, although `create()`'s own comment says it removes the old version
only "if it exists": evaluating `create()` for a minimal spec on an empty
artifact store yields the error, not a created artifact set. -/
theorem create_without_prior_artifacts_raises :
    Service.create allOkMgr svcX false {} = .error PyErr.fileNotFound := by
  rfl

/-- **C7.** Every restart-policy variant's service-level directive set
contains the base directive `Restart=<policy-kind>`, and a Burst policy with
restart-limit 5 and window 10s contributes exactly the unit-level directives
`{StartLimitIntervalSec=10, StartLimitBurst=5}` (as an unordered set,
modelled in insertion order) while its service-level set is exactly the base
restart directive with no burst-specific entry. -/
theorem restart_policy_directives :
    (∀ rp : RestartPolicy, ("Restart=" ++ rp.policyKind) ∈ rp.service_entries) ∧
    (RestartPolicy.burst "on-failure" 5 10).unit_entries =
      ["StartLimitIntervalSec=10", "StartLimitBurst=5"] ∧
    (RestartPolicy.burst "on-failure" 5 10).service_entries = ["Restart=on-failure"] := by
  refine ⟨fun rp => ?_, by decide, by decide⟩
  cases rp with
  | simple p => simp [RestartPolicy.service_entries, RestartPolicy.policyKind]
  | delayed p d =>
    simp [RestartPolicy.service_entries, RestartPolicy.policyKind, setUnion,
      setInsert]
    split <;> simp_all
  | burst p n w => simp [RestartPolicy.service_entries, RestartPolicy.policyKind]

/-- **C9, counterexample.** Two specs with the different names `"a b"` and
`"a_b"` map to the same artifact-name stem, so distinct names can collide. -/
theorem stem_collision :
    Service.base_file_stem { name := "a b", start_command := "c" } =
      Service.base_file_stem { name := "a_b", start_command := "c" } ∧
    ("a b" : String) ≠ "a_b" := by
  constructor
  · rfl
  · decide

/-- **C9, amended.** The artifact-name stem is a deterministic function of
the spec's name (prefix + name with spaces replaced by underscores), and two
specs map to the same stem exactly when their names agree after replacing
spaces with underscores — so names differing only in spaces versus
underscores collide, and all other distinct names map to distinct stems. -/
theorem stem_deterministic_and_collision_condition :
    ∀ s₁ s₂ : Service,
      s₁.base_file_stem = s₂.base_file_stem ↔
        sanitize_name s₁.name = sanitize_name s₂.name := by
  intro s₁ s₂
  constructor
  · intro h
    exact str_append_cancel_left h
  · intro h
    simp only [Service.base_file_stem, h]

/-- `_start_service` records exactly one `StartUnit` call per basename that
does not match the stop-service pattern, in order, and touches no files. -/
theorem start_service_calls (files : List String) (st : SysState) :
    (start_service files st).calls =
      st.calls ++ ((files.map basename).filter
        (fun sf => !(reMatchStopService sf))).map MgrCall.startUnit ∧
    (start_service files st).fs = st.fs := by
  induction files generalizing st with
  | nil => simp [start_service]
  | cons f fs ih =>
    simp only [start_service, List.foldl_cons] at ih ⊢
    by_cases hm : reMatchStopService (basename f)
    · simpa [hm] using ih st
    · have := ih (st.call (.startUnit (basename f)))
      simpa [hm, SysState.call] using this

/-- **C5.** `start(files)` resolves each path to its basename and issues a
start call for it unless it matches the secondary stop-service pattern
`^stop-.*\.service$`, which it skips; on `["x.service", "stop-x.service"]`
exactly one start call is issued, targeting `"x.service"`. -/
theorem start_skips_stop_service_artifacts :
    (∀ files st, (start_service files st).calls =
      st.calls ++ ((files.map basename).filter
        (fun sf => !(reMatchStopService sf))).map MgrCall.startUnit) ∧
    (start_service ["x.service", "stop-x.service"] {}).calls =
      [MgrCall.startUnit "x.service"] := by
  exact ⟨fun files st => (start_service_calls files st).1, by decide⟩

/-- The stop-service pattern never matches a `.timer` basename. -/
theorem reMatch_stop_timer_false (stem : String) :
    reMatchStopService ("stop-" ++ stem ++ ".timer") = false := by
  have hrev : ("stop-" ++ stem ++ ".timer").data.reverse =
      'r' :: (['e', 'm', 'i', 't', '.'] ++ ("stop-".data ++ stem.data).reverse) := by
    simp [String.data_append, List.reverse_append]
  have hstrip : stripTrailNl ("stop-" ++ stem ++ ".timer").data =
      ("stop-" ++ stem ++ ".timer").data := by
    unfold stripTrailNl
    rw [hrev]
    simp
  have hend : listEnds ".service".data ("stop-" ++ stem ++ ".timer").data = false := by
    unfold listEnds
    rw [hrev]
    simp [listStarts]
  simp only [reMatchStopService]
  rw [hstrip, hend]
  simp

/-- **C10.** For every spec with a stop schedule (and a slash-free name),
`Service.start()` does issue a start call for the secondary stop *timer*
artifact `stop-<stem>.timer`: the skip pattern requires a `.service` suffix,
so it does not match the stop timer's basename, and the stop timer is
started (arming the scheduled stop). -/
theorem stop_timer_is_started (s : Service) (st : SysState)
    (hstop : schedTruthy s.stop_schedule = true)
    (hname : ∀ c ∈ s.name.data, c ≠ '/') :
    reMatchStopService ("stop-" ++ s.base_file_stem ++ ".timer") = false ∧
    MgrCall.startUnit ("stop-" ++ s.base_file_stem ++ ".timer") ∈
      (Service.start s st).calls := by
  have hre := reMatch_stop_timer_false s.base_file_stem
  refine ⟨hre, ?_⟩
  have hnoslash : ∀ c ∈ ("stop-" ++ s.base_file_stem ++ ".timer").data, c ≠ '/' := by
    intro c hc
    simp only [String.data_append] at hc
    rcases List.mem_append.mp hc with hc | hc
    · rcases List.mem_append.mp hc with hc | hc
      · have h5 : ∀ a ∈ ("stop-" : String).data, a ≠ '/' := by decide
        exact h5 c hc
      · exact stem_no_slash s hname c hc
    · have h6 : ∀ a ∈ (".timer" : String).data, a ≠ '/' := by decide
      exact h6 c hc
  have hpath : path_join systemd_dir ("stop-" ++ s.base_file_stem ++ ".timer") ∈
      s.unit_files := by
    cases hss : schedTruthy s.start_schedule <;>
      simp [Service.unit_files, Service.timer_files, Service.service_files,
        hstop, hss]
  have hbn : basename (path_join systemd_dir ("stop-" ++ s.base_file_stem ++ ".timer")) =
      "stop-" ++ s.base_file_stem ++ ".timer" :=
    basename_join _ _ hnoslash
  have hcalls := (start_service_calls s.unit_files st).1
  simp only [Service.start, hcalls, List.mem_append]
  right
  refine List.mem_map_of_mem MgrCall.startUnit (List.mem_filter.mpr ⟨?_, ?_⟩)
  · have := List.mem_map_of_mem basename hpath
    rwa [hbn] at this
  · simp [hre]

/-- **C10, witness.** Instantiated for the concrete spec with a stop
schedule. -/
theorem stop_timer_is_started_witness :
    reMatchStopService ("stop-" ++ svcStop.base_file_stem ++ ".timer") = false ∧
    MgrCall.startUnit ("stop-" ++ svcStop.base_file_stem ++ ".timer") ∈
      (Service.start svcStop {}).calls :=
  stop_timer_is_started svcStop {} (by decide) (by decide)

/-- **C2, counterexample.** A spec whose `stop_schedule` is set but whose
`start_schedule` is not has exactly ONE timer file (only the stop timer), so
the claimed "timer_files has exactly two entries" fails. -/
theorem stop_schedule_one_timer_file :
    schedTruthy svcStop.stop_schedule = true ∧
    svcStop.timer_files.length = 1 ∧ svcStop.timer_files.length ≠ 2 := by
  decide

/-- **C2, amended.** For every spec (with a slash-free name) whose
`stop_schedule` is set: `service_files` has exactly two entries;
`timer_files` has exactly two entries when `start_schedule` is also set and
exactly one otherwise; and the secondary "stop" service artifact's sole
service-level directive is an `ExecStart` line referencing the primary
artifact's basename. -/
theorem stop_schedule_artifact_shape (s : Service) (st : SysState)
    (hstop : schedTruthy s.stop_schedule = true)
    (hname : ∀ c ∈ s.name.data, c ≠ '/') :
    s.service_files.length = 2 ∧
    s.timer_files.length = (if schedTruthy s.start_schedule then 2 else 1) ∧
    (s.write_service_units st).read
        (path_join systemd_dir ("stop-" ++ s.base_file_stem ++ ".service")) =
      some (String.intercalate "\n"
        ["[Service]",
         "ExecStart=systemctl --user stop " ++ s.base_file_stem ++ ".service",
         "[Install]", "WantedBy=default.target"]) := by
  have hnoslash : ∀ c ∈ (s.base_file_stem ++ ".service").data, c ≠ '/' := by
    intro c hc
    simp only [String.data_append] at hc
    rcases List.mem_append.mp hc with hc | hc
    · exact stem_no_slash s hname c hc
    · have h8 : ∀ a ∈ (".service" : String).data, a ≠ '/' := by decide
      exact h8 c hc
  refine ⟨by simp [Service.service_files, hstop], ?_, ?_⟩
  · cases hss : schedTruthy s.start_schedule <;> simp [Service.timer_files, hstop, hss]
  · have hbn : basename (path_join systemd_dir (s.base_file_stem ++ ".service")) =
        s.base_file_stem ++ ".service" :=
      basename_join _ _ hnoslash
    simp only [Service.write_service_units, Service.write_service_file,
      Service.write_systemd_file, hstop, if_true, Bool.false_eq_true, if_false,
      List.isEmpty_nil, List.nil_append, List.cons_append, String.append_assoc]
    rw [show ("." ++ "service" : String) = ".service" from rfl, hbn]
    exact fsRead_writeFile_self _ _ _

/-- **C2, witness.** Instantiated for the concrete stop-schedule spec. -/
theorem stop_schedule_artifact_shape_witness :
    svcStop.service_files.length = 2 ∧
    svcStop.timer_files.length = (if schedTruthy svcStop.start_schedule then 2 else 1) ∧
    (svcStop.write_service_units {}).read
        (path_join systemd_dir ("stop-" ++ svcStop.base_file_stem ++ ".service")) =
      some (String.intercalate "\n"
        ["[Service]",
         "ExecStart=systemctl --user stop " ++ svcStop.base_file_stem ++ ".service",
         "[Install]", "WantedBy=default.target"]) :=
  stop_schedule_artifact_shape svcStop {} (by decide) (by decide)

/-! ## Lemmas about the remove/stop/disable loops. -/

theorem except_bind_ok {ε α β : Type} (a : α) (f : α → Except ε β) :
    (Except.ok a : Except ε α) >>= f = f a := rfl

theorem except_bind_error {ε α β : Type} (e : ε) (f : α → Except ε β) :
    (Except.error e : Except ε α) >>= f = Except.error e := rfl

theorem stop_service_step_eq (m : MgrModel) (st : SysState) (f : String) :
    stop_service_step m st f = st.call (.stopUnit (basename f)) := by
  simp only [stop_service_step]
  cases mgrStopUnit m (basename f) <;> rfl

/-- `_stop_service` records a `StopUnit` attempt for every basename, in
order, regardless of which stop calls fail, and touches nothing else. -/
theorem stop_service_eq (m : MgrModel) (files : List String) (st : SysState) :
    stop_service m files st =
      { st with calls := st.calls ++ files.map (fun f => MgrCall.stopUnit (basename f)) } := by
  induction files generalizing st with
  | nil => simp [stop_service]
  | cons f fs ih =>
    simp only [stop_service, List.foldl_cons] at ih ⊢
    rw [stop_service_step_eq, ih]
    simp [SysState.call, List.append_assoc]

theorem foldl_call_map (g : String → MgrCall) (xs : List String) (st : SysState) :
    xs.foldl (fun st n => st.call (g n)) st =
      { st with calls := st.calls ++ xs.map g } := by
  induction xs generalizing st with
  | nil => simp
  | cons x xs ih =>
    simp only [List.foldl_cons]
    rw [ih]
    simp [SysState.call, List.append_assoc]

theorem foldl_call_map2 (g : String → MgrCall) (xs : List String) (st : SysState) :
    xs.foldl (fun st n => { fs := st.fs, calls := st.calls ++ [g n] }) st =
      { st with calls := st.calls ++ xs.map g } := by
  have h := foldl_call_map g xs st
  simpa [SysState.call] using h

theorem clean_scan_step_eq (m : MgrModel) (st : SysState) (acc : List String)
    (f : String) :
    clean_scan_step m (st, acc) f =
      match fsRead st.fs f with
      | none => .error PyErr.fileNotFound
      | some txt =>
        .ok (st.call (.cleanUnit (basename f)),
          match searchDockerName txt.data with
          | some n => setInsert acc n
          | none => acc) := by
  simp only [clean_scan_step, SysState.read, SysState.call]
  cases hc : mgrCleanUnit m (basename f) <;>
    cases hr : fsRead st.fs f <;>
      simp [hc, hr, SysState.call, except_bind_ok, except_bind_error]

/-- The per-file clean/scan fold: clean attempts are recorded for every
file regardless of clean failures, the store is untouched, and the collected
names are exactly `scan_names`. -/
theorem clean_scan_go (m : MgrModel) (sfs : List String) :
    ∀ (st : SysState) (acc : List String),
      sfs.foldlM (clean_scan_step m) (st, acc) =
        match scan_names st.fs sfs acc with
        | some cn =>
          .ok ({ st with calls := st.calls ++ sfs.map (fun f => MgrCall.cleanUnit (basename f)) }, cn)
        | none => .error PyErr.fileNotFound := by
  induction sfs with
  | nil =>
    intro st acc
    simp only [scan_names, List.map_nil, List.append_nil, List.foldlM_nil]
    rfl
  | cons f rest ih =>
    intro st acc
    rw [List.foldlM_cons, clean_scan_step_eq]
    cases hr : fsRead st.fs f with
    | none => simp [scan_names, hr, except_bind_error]
    | some txt =>
      rw [except_bind_ok]
      rw [ih (st.call (.cleanUnit (basename f)))]
      have hfs : (st.call (.cleanUnit (basename f))).fs = st.fs := rfl
      rw [hfs]
      simp only [scan_names, hr]
      cases scan_names st.fs rest
          (match searchDockerName txt.data with
           | some n => setInsert acc n
           | none => acc) <;>
        simp [SysState.call, List.append_assoc]

theorem unlink_calls (st st1 : SysState) (f : String)
    (h : st.unlink f = .ok st1) : st1.calls = st.calls := by
  unfold SysState.unlink at h
  split at h
  · cases h; rfl
  · cases h

theorem unlink_fold_calls (files : List String) :
    ∀ (st st' : SysState),
      files.foldlM (fun st f => st.unlink f) st = .ok st' → st'.calls = st.calls := by
  induction files with
  | nil =>
    intro st st' h
    rw [List.foldlM_nil] at h
    cases h
    rfl
  | cons f fs ih =>
    intro st st' h
    rw [List.foldlM_cons] at h
    cases hu : st.unlink f with
    | error e => rw [hu, except_bind_error] at h; cases h
    | ok st1 =>
      rw [hu, except_bind_ok] at h
      rw [ih st1 st' h, unlink_calls st st1 f hu]

/-! ## C3: failure isolation of stop / disable / clean. -/

/-- A manager on which every `DisableUnitFiles` call fails. -/
def disableFailMgr : MgrModel :=
  { stopFails := fun _ => false
    disableFails := fun _ => true
    cleanFails := fun _ => false }

/-- A manager on which every per-unit call fails (stop and clean). -/
def unitFailMgr : MgrModel :=
  { stopFails := fun _ => true
    disableFails := fun _ => false
    cleanFails := fun _ => true }

/-- **C3, counterexample.** An IPC failure during disable is NOT caught:
`_disable_service` performs one batch `DisableUnitFiles` call with no
exception handler, so on a manager whose disable call fails the exception
propagates out of the function instead of being logged. -/
theorem disable_failure_propagates :
    disable_service disableFailMgr ["a.service", "b.service"] {} =
      .error PyErr.dbusError := by
  rfl

/-- **C3, amended.** IPC failures during stop and during the per-unit clean
step of `remove()` are caught per unit (the functions behave identically
whatever subset of those calls fails) and every unit in the list still gets
its call attempted, in order; disable, however, is issued as a single batch
`DisableUnitFiles` call with no exception handling, so a disable failure
propagates as an error. -/
theorem ipc_failure_isolation :
    (∀ m m' : MgrModel, ∀ files st, stop_service m files st = stop_service m' files st) ∧
    (∀ m : MgrModel, ∀ files st,
      (stop_service m files st).calls =
        st.calls ++ files.map (fun f => MgrCall.stopUnit (basename f))) ∧
    (∀ m m' : MgrModel, ∀ sfs st, clean_scan m sfs st = clean_scan m' sfs st) ∧
    (∀ m : MgrModel, ∀ sfs st st' cn, clean_scan m sfs st = .ok (st', cn) →
      st'.calls = st.calls ++ sfs.map (fun f => MgrCall.cleanUnit (basename f))) ∧
    (∀ m : MgrModel, ∀ files st, m.disableFails (files.map basename) = true →
      disable_service m files st = .error PyErr.dbusError) := by
  refine ⟨?_, ?_, ?_, ?_, ?_⟩
  · intro m m' files st
    rw [stop_service_eq, stop_service_eq]
  · intro m files st
    rw [stop_service_eq]
  · intro m m' sfs st
    unfold clean_scan
    rw [clean_scan_go, clean_scan_go]
  · intro m sfs st st' cn h
    unfold clean_scan at h
    rw [clean_scan_go] at h
    cases hs : scan_names st.fs sfs [] with
    | none => rw [hs] at h; cases h
    | some names =>
      rw [hs] at h
      cases h
      rfl
  · intro m files st h
    simp [disable_service, h]

/-- **C3, witness.** The amended theorem instantiated on concrete inputs:
a failing manager and a working manager agree on stop and clean, the calls
are all attempted, and a failing batch disable errors out. -/
theorem ipc_failure_isolation_witness :
    stop_service unitFailMgr ["a.service", "b.service"] {} =
      stop_service allOkMgr ["a.service", "b.service"] {} ∧
    (stop_service unitFailMgr ["a.service", "b.service"] {}).calls =
      ([] : List MgrCall) ++ ["a.service", "b.service"].map (fun f => MgrCall.stopUnit (basename f)) ∧
    clean_scan unitFailMgr ["a.service"] { fs := [("a.service", "x")] } =
      clean_scan allOkMgr ["a.service"] { fs := [("a.service", "x")] } ∧
    ({ fs := [("a.service", "x")],
       calls := [MgrCall.cleanUnit "a.service"] } : SysState).calls =
      ({ fs := [("a.service", "x")] } : SysState).calls ++
        ["a.service"].map (fun f => MgrCall.cleanUnit (basename f)) ∧
    disable_service disableFailMgr ["a.service"] {} = .error PyErr.dbusError :=
  ⟨ipc_failure_isolation.1 unitFailMgr allOkMgr ["a.service", "b.service"] {},
   ipc_failure_isolation.2.1 unitFailMgr ["a.service", "b.service"] {},
   ipc_failure_isolation.2.2.1 unitFailMgr allOkMgr ["a.service"] { fs := [("a.service", "x")] },
   ipc_failure_isolation.2.2.2.1 unitFailMgr ["a.service"]
     { fs := [("a.service", "x")] }
     { fs := [("a.service", "x")], calls := [MgrCall.cleanUnit "a.service"] }
     [] (by rfl),
   ipc_failure_isolation.2.2.2.2 disableFailMgr ["a.service"] {} (by decide)⟩

/-! ## C6: container deletion during remove. -/

theorem setInsert_mem (xs : List String) (x n : String) :
    n ∈ setInsert xs x ↔ n ∈ xs ∨ n = x := by
  by_cases h : x ∈ xs
  · simp only [setInsert, if_pos h]
    constructor
    · exact Or.inl
    · rintro (hn | rfl)
      · exact hn
      · exact h
  · simp [setInsert, h]

theorem setInsert_nodup (xs : List String) (x : String) (h : xs.Nodup) :
    (setInsert xs x).Nodup := by
  by_cases hx : x ∈ xs
  · simpa [setInsert, hx] using h
  · simp only [setInsert, if_neg hx]
    simp [List.nodup_append, h, hx]

theorem scan_names_nodup (fs : List (String × String)) (sfs : List String) :
    ∀ acc cn, acc.Nodup → scan_names fs sfs acc = some cn → cn.Nodup := by
  induction sfs with
  | nil =>
    intro acc cn h hs
    cases hs
    exact h
  | cons f rest ih =>
    intro acc cn h hs
    unfold scan_names at hs
    split at hs
    next => cases hs
    next txt hr =>
      split at hs
      next w hn => exact ih (setInsert acc w) cn (setInsert_nodup acc w h) hs
      next hn => exact ih acc cn h hs

theorem scan_names_mem (fs : List (String × String)) (sfs : List String) :
    ∀ acc cn, scan_names fs sfs acc = some cn →
      ∀ n, n ∈ cn ↔ n ∈ acc ∨
        ∃ f ∈ sfs, ∃ txt, fsRead fs f = some txt ∧
          searchDockerName txt.data = some n := by
  induction sfs with
  | nil =>
    intro acc cn hs n
    cases hs
    simp
  | cons f rest ih =>
    intro acc cn hs n
    unfold scan_names at hs
    split at hs
    next hr => cases hs
    next txt hr =>
      have hhead : (∃ txt2, fsRead fs f = some txt2 ∧
          searchDockerName txt2.data = some n) ↔
          searchDockerName txt.data = some n := by
        constructor
        · rintro ⟨txt2, h2, h3⟩
          rw [hr] at h2
          cases h2
          exact h3
        · intro h3
          exact ⟨txt, hr, h3⟩
      split at hs
      next w hn =>
        rw [ih (setInsert acc w) cn hs n]
        rw [setInsert_mem]
        simp only [List.exists_mem_cons_iff, hhead, hn, Option.some.injEq]
        constructor
        · rintro ((h | rfl) | h)
          · exact Or.inl h
          · exact Or.inr (Or.inl rfl)
          · exact Or.inr (Or.inr h)
        · rintro (h | rfl | h)
          · exact Or.inl (Or.inl h)
          · exact Or.inl (Or.inr rfl)
          · exact Or.inr h
      next hn =>
        rw [ih acc cn hs n]
        simp only [List.exists_mem_cons_iff, hhead, hn]
        constructor
        · exact fun h => Or.elim h (fun h => Or.inl h) (fun h => Or.inr (Or.inr h))
        · rintro (h | h | h)
          · exact Or.inl h
          · cases h
          · exact Or.inr h

theorem containerDeletes_stops (files : List String) :
    containerDeletes (files.map (fun f => MgrCall.stopUnit (basename f))) = [] := by
  induction files with
  | nil => rfl
  | cons f fs _ => simp [containerDeletes]

theorem containerDeletes_cleans (files : List String) :
    containerDeletes (files.map (fun f => MgrCall.cleanUnit (basename f))) = [] := by
  induction files with
  | nil => rfl
  | cons f fs _ => simp [containerDeletes]

theorem containerDeletes_deletes (cn : List String) :
    containerDeletes (cn.map MgrCall.deleteContainer) = cn := by
  induction cn with
  | nil => rfl
  | cons n ns ih => simp [containerDeletes] at ih ⊢; exact ih

/-- When the unlink loop (composed with the final `ok`) succeeds, the call
trace is that of its initial state. -/
theorem bind_unlink_ok (files : List String) (st0 st' : SysState)
    (h : (files.foldlM (fun st f => st.unlink f) st0) >>=
        (fun st => (Except.ok st : Except PyErr SysState)) = .ok st') :
    st'.calls = st0.calls := by
  cases hu : files.foldlM (fun st f => st.unlink f) st0 with
  | error e => rw [hu, except_bind_error] at h; cases h
  | ok stv =>
    rw [hu, except_bind_ok] at h
    have h2 : stv = st' := by
      injection h
    rw [← h2]
    exact unlink_fold_calls files st0 stv hu

/-- On a successful `_remove_service`, the container-delete calls in the
trace are exactly the names collected by the scan. -/
theorem remove_service_ok_deletes (m : MgrModel) (sfs tfs : List String)
    (st st' : SysState) (h0 : st.calls = [])
    (h : remove_service m sfs tfs st = .ok st') :
    ∃ cn, scan_names st.fs sfs [] = some cn ∧
      containerDeletes st'.calls = cn := by
  unfold remove_service at h
  dsimp only at h
  rw [stop_service_eq] at h
  unfold disable_service at h
  dsimp only [SysState.call] at h
  by_cases hd : m.disableFails ((sfs ++ tfs).map basename)
  · rw [if_pos hd] at h
    rw [except_bind_error] at h
    cases h
  · rw [if_neg hd] at h
    rw [except_bind_ok] at h
    unfold clean_scan at h
    rw [clean_scan_go] at h
    dsimp only at h
    cases hs : scan_names st.fs sfs [] with
    | none =>
      rw [hs] at h
      cases h
    | some cn =>
      refine ⟨cn, rfl, ?_⟩
      rw [hs] at h
      rw [except_bind_ok] at h
      dsimp only at h
      rw [foldl_call_map2 MgrCall.deleteContainer] at h
      have hcalls := bind_unlink_ok (sfs ++ tfs) _ st' h
      rw [hcalls]
      simp only [h0, List.nil_append, containerDeletes_append,
        containerDeletes_stops, containerDeletes_cleans,
        containerDeletes_deletes]
      rfl

/-- Concrete fixtures for the container-deletion claim: two service
artifacts whose texts reference the container name `c1` three times in
total (twice in the first artifact). -/
def c6files : List String := ["a.service", "b.service"]

/-- The on-disk store holding the two artifacts. -/
def c6st : SysState :=
  { fs := [("a.service", "ExecStart=docker start c1\nExecStop=docker stop c1"),
           ("b.service", "ExecStart=docker start c1")] }

/-- The state `_remove_service` leaves behind on the fixtures. -/
def c6result : SysState :=
  match remove_service allOkMgr c6files [] c6st with
  | .ok st => st
  | .error _ => {}

/-- **C6.** On a successful `remove()`, the container-delete calls are
duplicate-free and contain exactly the names found by scanning each service
artifact's text (first `docker start|stop <name>` match per artifact); on
the concrete fixtures, whose artifacts reference `"c1"` twice in one file
and once in another, exactly one delete call is made, for `"c1"`. -/
theorem remove_deletes_each_container_once :
    (∀ (m : MgrModel) (sfs tfs : List String) (st st' : SysState),
      st.calls = [] → remove_service m sfs tfs st = .ok st' →
      (containerDeletes st'.calls).Nodup ∧
      (∀ n, n ∈ containerDeletes st'.calls ↔
        ∃ f ∈ sfs, ∃ txt, fsRead st.fs f = some txt ∧
          searchDockerName txt.data = some n)) ∧
    containerDeletes c6result.calls = ["c1"] := by
  constructor
  · intro m sfs tfs st st' h0 h
    obtain ⟨cn, hs, hdel⟩ := remove_service_ok_deletes m sfs tfs st st' h0 h
    rw [hdel]
    refine ⟨scan_names_nodup st.fs sfs [] cn List.nodup_nil hs, ?_⟩
    intro n
    rw [scan_names_mem st.fs sfs [] cn hs n]
    simp
  · decide

/-- **C6, witness.** The universally quantified part instantiated on the
concrete fixtures. -/
theorem remove_deletes_each_container_once_witness :
    (containerDeletes c6result.calls).Nodup ∧
    (∀ n, n ∈ containerDeletes c6result.calls ↔
      ∃ f ∈ c6files, ∃ txt, fsRead c6st.fs f = some txt ∧
        searchDockerName txt.data = some n) :=
  remove_deletes_each_container_once.1 allOkMgr c6files [] c6st c6result
    rfl (by rfl)

/-! ## C8: no fail-fast validation of malformed names. -/

/-- A spec with an empty name: its artifact stem degenerates to the bare
prefix. -/
def svcEmptyName : Service := { name := "", start_command := "c" }

/-- The lone artifact path derived from the empty name. -/
def c8path : String := path_join systemd_dir (systemdFilePfx ++ ".service")

/-- The primary artifact text synthesized for the empty-name spec. -/
def c8content : String :=
  "[Service]\nExecStart=c\nKillSignal=SIGTERM\n[Install]\nWantedBy=default.target"

/-- `_remove_service` evaluated forward on the store holding just the
empty-name spec's primary artifact (with arbitrary content `c`). -/
theorem remove_empty_eval (c : String) (cn : List String)
    (hscan : scan_names [(c8path, c)] [c8path] [] = some cn) :
    remove_service allOkMgr [c8path] [] { fs := [(c8path, c)], calls := [] } =
      .ok { fs := [],
            calls := [MgrCall.stopUnit (basename c8path),
                      MgrCall.disableUnitFiles [basename c8path],
                      MgrCall.cleanUnit (basename c8path)] ++
              cn.map MgrCall.deleteContainer } := by
  unfold remove_service
  dsimp only
  rw [stop_service_eq]
  unfold disable_service
  dsimp only [SysState.call, allOkMgr]
  rw [if_neg Bool.false_ne_true]
  rw [except_bind_ok]
  unfold clean_scan
  rw [clean_scan_go]
  dsimp only
  rw [hscan]
  rw [except_bind_ok]
  dsimp only
  rw [foldl_call_map2 MgrCall.deleteContainer]
  simp only [List.append_nil, List.foldlM_cons, List.foldlM_nil,
    SysState.unlink, List.find?, beq_self_eq_true, Option.isSome_some,
    if_true, List.filter, Bool.not_true, except_bind_ok]
  simp [List.append_assoc]

/-- `create()` evaluated forward for the empty-name spec from the store
holding its primary artifact with arbitrary content: it completes, rewrites
the artifact, and ends with the persistent enable call. -/
theorem create_empty_eval (c : String) (cn : List String)
    (hscan : scan_names [(c8path, c)] [c8path] [] = some cn) :
    Service.create allOkMgr svcEmptyName false { fs := [(c8path, c)] } =
      .ok { fs := [(c8path, c8content)],
            calls := [MgrCall.stopUnit (basename c8path),
                      MgrCall.disableUnitFiles [basename c8path],
                      MgrCall.cleanUnit (basename c8path)] ++
              cn.map MgrCall.deleteContainer ++
              [MgrCall.reload,
               MgrCall.enableUnitFiles [c8path] false true] } := by
  unfold Service.create Service.remove
  dsimp only
  rw [show svcEmptyName.service_files = [c8path] from rfl,
      show svcEmptyName.timer_files = ([] : List String) from rfl]
  rw [remove_empty_eval c cn hscan]
  rw [except_bind_ok]
  dsimp only [svcEmptyName, Service.write_timer_units, Service.write_timer_unit,
    Service.write_service_units, Service.write_service_file,
    Service.write_systemd_file, SysState.writeFile, SysState.call,
    enable_service, schedTruthy]
  simp only [List.append_assoc]
  simp
  decide

/-- **C8, counterexample.** Creating a spec with an empty name does NOT
fail fast: from a store holding the prior artifact, `create()` completes,
the (rewritten) artifact file is present afterwards (`isSome = true`), and
the manager-call trace is non-empty (`isEmpty = false`) — file I/O and IPC
calls were all performed despite the malformed name. -/
theorem empty_name_no_fail_fast :
    (Service.create allOkMgr svcEmptyName false
        { fs := [(c8path, "old")] }).map
        (fun st => ((st.read c8path).isSome, st.calls.isEmpty)) =
      .ok (true, false) := by
  rfl

/-- **C8, amended.** No precondition check exists: for a spec with an empty
name, synthesis derives the artifact stem as the bare prefix and `create()`
proceeds with file I/O and IPC; for every prior content of that artifact
file, `create()` completes with the artifact written and the persistent
enable as the final manager call. -/
theorem empty_name_creation_proceeds (c : String) :
    (Service.create allOkMgr svcEmptyName false
        { fs := [(c8path, c)] }).map
        (fun st => ((st.read c8path).isSome, st.calls.getLast?)) =
      .ok (true, some (MgrCall.enableUnitFiles [c8path] false true)) := by
  cases hsea : searchDockerName c.data with
  | none =>
    have hscan : scan_names [(c8path, c)] [c8path] [] = some [] := by
      simp [scan_names, fsRead, hsea]
    rw [create_empty_eval c [] hscan]
    rfl
  | some n =>
    have hscan : scan_names [(c8path, c)] [c8path] [] = some [n] := by
      simp [scan_names, fsRead, hsea, setInsert]
    rw [create_empty_eval c [n] hscan]
    rfl

/-! ## C4: timestamp normalization. -/

theorem except_bind_eq_ok {ε α β : Type} {x : Except ε α} {f : α → Except ε β}
    {b : β} (h : x >>= f = .ok b) : ∃ a, x = .ok a ∧ f a = .ok b := by
  cases x with
  | error e => rw [except_bind_error] at h; cases h
  | ok a => exact ⟨a, rfl, h⟩

/-- **C4, counterexample.** The sentinel does NOT always normalize to
unknown: `datetime.fromtimestamp` converts to local time while `missing_dt`
is the naive epoch, so on a host whose UTC offset is +1h (offset 3600s) the
sentinel timestamp 0 decodes to the parsed local datetime
1970-01-01 01:00:00 (3600000000 microseconds), and `get_schedule_info` for
a unit whose `ActiveExitTimestamp` is the sentinel then reports that parsed
date as "Last Finish", not an unknown value. -/
theorem sentinel_parsed_on_nonzero_offset :
    (3600 : Int) ≠ 0 ∧
    timestamp_to_dt 3600 0 = .ok (some 3600000000) ∧
    (get_schedule_info 3600
        { activeEnter := 0, activeExit := 0, nextElapse := 0,
          timersCalendar := [], timersMonotonic := [] }).map
        (fun info => info.lastFinish) = .ok (some 3600000000) :=
  ⟨by decide, rfl, rfl⟩

/-- **C4, amended.** For every host UTC offset and every timestamp in the
manager's unsigned 64-bit domain, decoding never raises (only `ValueError`
can occur and it is caught), and any value whose local conversion falls
outside the representable calendar range normalizes to unknown.  The
sentinel-to-unknown part, however, is timezone-dependent: the code compares
the local-time result against the naive epoch, so the sentinel epoch value
decodes to unknown — and `get_schedule_info` reports an unknown
"Last Finish" for a sentinel `ActiveExitTimestamp` — exactly on a host
whose UTC offset at the epoch is zero; on a nonzero-offset host (any real
offset, within ±24h) the sentinel instead decodes to a parsed local
datetime. -/
theorem timestamp_decoding_timezone_behavior :
    (∀ (off : Int) (t : Nat), t < 2 ^ 64 → ∃ r, timestamp_to_dt off t = .ok r) ∧
    (∀ (off : Int) (t : Nat), t < 2 ^ 64 →
      ((t : Int) + off * 1000000 < MIN_DT_USEC ∨
        MAX_DT_USEC < (t : Int) + off * 1000000) →
      timestamp_to_dt off t = .ok none) ∧
    timestamp_to_dt 0 0 = .ok none ∧
    (∀ (p : ScheduleProps) (info : ScheduleInfo), p.activeExit = 0 →
      get_schedule_info 0 p = .ok info → info.lastFinish = none) ∧
    (∀ off : Int, off ≠ 0 → -86400 ≤ off → off ≤ 86400 →
      timestamp_to_dt off 0 = .ok (some (off * 1000000))) := by
  have hfit : ∀ t : Nat, t < 2 ^ 64 → ¬ (TIME_T_MAX < t / 1000000) := by
    intro t ht
    have h2 : t ≤ 2 ^ 64 - 1 := Nat.le_sub_one_of_lt ht
    have h3 : t / 1000000 ≤ (2 ^ 64 - 1) / 1000000 :=
      Nat.div_le_div_right h2
    have h4 : (2 ^ 64 - 1) / 1000000 ≤ TIME_T_MAX := by decide
    exact Nat.not_lt.mpr (le_trans h3 h4)
  refine ⟨?_, ?_, rfl, ?_, ?_⟩
  · intro off t ht
    unfold timestamp_to_dt fromtimestampUsec
    dsimp only
    rw [if_neg (hfit t ht)]
    by_cases hv : ((t : Int) + off * 1000000 < MIN_DT_USEC ∨
        MAX_DT_USEC < (t : Int) + off * 1000000)
    · rw [if_pos hv]
      exact ⟨none, rfl⟩
    · rw [if_neg hv]
      exact ⟨_, rfl⟩
  · intro off t ht hv
    unfold timestamp_to_dt fromtimestampUsec
    dsimp only
    rw [if_neg (hfit t ht), if_pos hv]
  · intro p info hexit h
    unfold get_schedule_info at h
    obtain ⟨ls, hls, h⟩ := except_bind_eq_ok h
    obtain ⟨lf, hlf, h⟩ := except_bind_eq_ok h
    rw [hexit] at hlf
    have hlf2 : Except.ok (α := Option Int) (ε := PyErr) none = .ok lf := hlf
    cases hlf2
    obtain ⟨ns, hns, h⟩ := except_bind_eq_ok h
    obtain ⟨cal, hcal, h⟩ := except_bind_eq_ok h
    obtain ⟨mono, hmono, h⟩ := except_bind_eq_ok h
    have h2 : _ = info := Except.ok.inj h
    rw [← h2]
  · intro off h0 h1 h2
    unfold timestamp_to_dt fromtimestampUsec
    dsimp only
    have hover : ¬ (TIME_T_MAX < (0 : Nat) / 1000000) := by decide
    rw [if_neg hover]
    have hrange : ¬ (((0 : Nat) : Int) + off * 1000000 < MIN_DT_USEC ∨
        MAX_DT_USEC < ((0 : Nat) : Int) + off * 1000000) := by
      simp only [MIN_DT_USEC, MAX_DT_USEC, Nat.cast_zero]
      omega
    rw [if_neg hrange]
    dsimp only
    have hne : ¬ (((0 : Nat) : Int) + off * 1000000 = missing_dt) := by
      simp only [missing_dt, Nat.cast_zero]
      omega
    rw [if_neg hne]
    simp

/-- Concrete manager-property fixture whose `ActiveExitTimestamp` is the
sentinel epoch value. -/
def c4props : ScheduleProps :=
  { activeEnter := 5000000, activeExit := 0, nextElapse := 0,
    timersCalendar := [("OnCalendar", "daily", 7000000)],
    timersMonotonic := [] }

/-- The schedule information decoded for the fixture on a zero-offset
host. -/
def c4info : ScheduleInfo :=
  { lastStart := some 5000000, lastFinish := none, nextStart := some 7000000,
    timersCalendar := [{ base := "OnCalendar", spec := "daily",
                         next_start := some 7000000 }],
    timersMonotonic := [] }

/-- **C4, witness.** The amended theorem instantiated at concrete inputs:
an in-range timestamp decodes at any offset, an out-of-range one decodes to
unknown, the sentinel fixture yields an unknown last finish on a
zero-offset host, and a +2h host turns the sentinel into a parsed date. -/
theorem timestamp_decoding_timezone_behavior_witness :
    (∃ r, timestamp_to_dt 3600 42 = .ok r) ∧
    timestamp_to_dt 0 253402300800000000 = .ok none ∧
    c4info.lastFinish = none ∧
    timestamp_to_dt 7200 0 = .ok (some (7200 * 1000000)) :=
  ⟨timestamp_decoding_timezone_behavior.1 3600 42 (by decide),
   timestamp_decoding_timezone_behavior.2.1 0 253402300800000000
     (by decide) (by decide),
   timestamp_decoding_timezone_behavior.2.2.2.1 c4props c4info rfl (by rfl),
   timestamp_decoding_timezone_behavior.2.2.2.2 7200 (by decide) (by decide)
     (by decide)⟩

end Taskflows
